import Mathlib

/-!
Verification of the session-logging core of the `canvas-plugin-assistant`
scripts (`cost_logger.py`, `user_input_logger.py`, `base_logger.py`,
`session_end_orchestrator.py`), as a shallow embedding in Lean.

Modelling conventions:
* JSON integer fields (token counts) are `ℤ`; USD amounts and second counts
  are exact rationals `ℚ`; Python `round(x, n)` is round-half-to-even.
* Python dicts with a known key set are structures with `Option` fields
  (`none` = key absent); `dict.get(k, d)` is `Option.getD`.
* A JSON file that exists but fails to parse is `none` in a
  `List (Option _)` of directory contents; a Python exception escaping a
  function is `Except.error` with the exception text.
* Paths are lists of components where directory structure matters
  (aggregation-file placement), plain values otherwise.
-/

/-- Python `round` to an integer: round half to even (banker's rounding). -/
def pyRoundHalfEven (q : ℚ) : ℤ :=
  let f : ℤ := ⌊q⌋
  let r : ℚ := q - f
  if r < 1/2 then f
  else if r > 1/2 then f + 1
  else if f % 2 = 0 then f else f + 1

/-- Python `round(q, n)`: round to `n` decimal places, half to even. -/
def pyRound (q : ℚ) (n : ℕ) : ℚ :=
  (pyRoundHalfEven (q * (10 : ℚ) ^ n) : ℚ) / (10 : ℚ) ^ n

/-- Python `int()` applied to a float/rational: truncation toward zero. -/
def pyInt (q : ℚ) : ℤ :=
  if q ≥ 0 then ⌊q⌋ else -⌊-q⌋

/-- Test that the char list `p` is an initial segment of `s` (`isPrefixOfChars p s`). -/
def isPrefixOfChars : List Char → List Char → Bool
  | [], _ => true
  | _ :: _, [] => false
  | a :: as, b :: bs => a == b && isPrefixOfChars as bs

/-- Python `s.startswith(p)`. -/
def pyStartsWith (s p : String) : Bool :=
  isPrefixOfChars p.data s.data

/-- Default-zero read of an optional integer dict entry (`d.get(k, 0)`). -/
def getTok (x : Option ℤ) : ℤ := x.getD 0

/-! ## Pricing and `CostsLogger.calculate_cost`

`load_pricing` turns the sidecar JSON into a dict mapping model names to
per-token rates; we model its output as an association list in dict
insertion order.  `calculate_cost` normalizes the model name by scanning the
pricing keys for one that the model name starts with (first match wins),
then sums the four token·price products and rounds to 6 decimals. -/

structure ModelPricing where
  input : ℚ
  output : ℚ
  cache_write : ℚ
  cache_read : ℚ
deriving DecidableEq

/-- The `token_counts` dict passed to `calculate_cost`; each key optional
(`token_counts.get(k, 0)`). -/
structure TokenCounts where
  input : Option ℤ
  output : Option ℤ
  cache_write : Option ℤ
  cache_read : Option ℤ
deriving DecidableEq

/-- The normalization loop in `calculate_cost`: the first pricing key that
`model` starts with, else `model` itself. -/
def normalizeModelName (pricing : List (String × ModelPricing)) (model : String) : String :=
  match pricing.find? (fun kv => pyStartsWith model kv.1) with
  | some kv => kv.1
  | none => model

/-- Python dict lookup `pricing_list[k]` (with `k in pricing_list` check). -/
def lookupKey (pricing : List (String × ModelPricing)) (k : String) : Option ModelPricing :=
  (pricing.find? (fun kv => kv.1 == k)).map (·.2)

/-- The unrounded cost sum in `calculate_cost`:
`input·price_in + output·price_out + cache_write·price_cw + cache_read·price_cr`. -/
def linearCost (p : ModelPricing) (tc : TokenCounts) : ℚ :=
  (getTok tc.input : ℚ) * p.input + (getTok tc.output : ℚ) * p.output +
    (getTok tc.cache_write : ℚ) * p.cache_write + (getTok tc.cache_read : ℚ) * p.cache_read

/-- Which pricing entry a model name resolves to: normalization followed by
the table lookup (the composition used inside `calculate_cost`). -/
def CostsLogger.resolvePricing (pricing : List (String × ModelPricing)) (model : String) :
    Option ModelPricing :=
  lookupKey pricing (normalizeModelName pricing model)

/-- The function `CostsLogger.calculate_cost`, with the pricing table (the result of
`load_pricing`) passed explicitly. -/
def CostsLogger.calculate_cost (pricing : List (String × ModelPricing)) (tc : TokenCounts)
    (model : String) : Option ℚ :=
  match lookupKey pricing (normalizeModelName pricing model) with
  | none => none
  | some p => some (pyRound (linearCost p tc) 6)

/-! ## Datetimes and `CostsLogger.parse_timestamp`

`parse_timestamp` tries three `strptime` formats on the input with `+00:00`
rewritten to `Z`, then falls back to `fromisoformat` on the input with `Z`
rewritten to `+00:00`.  The first two formats produce naive datetimes, the
third (with `%z`) and the fallback with an explicit offset produce aware
ones; subtracting a naive from an aware datetime (or vice versa) raises
`TypeError`.  Parsers work on `List Char` with explicit fuel-free structural
recursion so that all definitions reduce in the kernel.  JSON `null` values
and non-string timestamp fields are modelled as absent keys. -/

structure PyDateTime where
  year : ℕ
  month : ℕ
  day : ℕ
  hour : ℕ
  minute : ℕ
  second : ℕ
  micro : ℕ
  tzMin : Option ℤ
deriving DecidableEq

/-- Python `str.replace(pat, repl)` (all occurrences, left to right), on char
lists, with fuel equal to the input length (each step consumes ≥ 1 char). -/
def replaceSubAux (pat repl : List Char) : ℕ → List Char → List Char
  | 0, s => s
  | _ + 1, [] => []
  | n + 1, c :: cs =>
    if isPrefixOfChars pat (c :: cs) && !pat.isEmpty then
      repl ++ replaceSubAux pat repl n ((c :: cs).drop pat.length)
    else
      c :: replaceSubAux pat repl n cs

def replaceSub (pat repl s : List Char) : List Char :=
  replaceSubAux pat repl s.length s

/-- Read up to `w` leading digits: value, number of digits read, rest. -/
def takeDigitsAux : ℕ → List Char → ℕ → ℕ → ℕ × ℕ × List Char
  | 0, cs, acc, cnt => (acc, cnt, cs)
  | _ + 1, [], acc, cnt => (acc, cnt, [])
  | w + 1, c :: cs, acc, cnt =>
    if c.isDigit then takeDigitsAux w cs (acc * 10 + (c.toNat - '0'.toNat)) (cnt + 1)
    else (acc, cnt, c :: cs)

/-- Parse 1 to `w` digits (strptime numeric fields are 1–2 or 1–4 digits). -/
def parseNum (w : ℕ) (cs : List Char) : Option (ℕ × ℕ × List Char) :=
  let r := takeDigitsAux w cs 0 0
  if r.2.1 = 0 then none else some r

def expectChar (c : Char) : List Char → Option (List Char)
  | [] => none
  | x :: xs => if x == c then some xs else none

def isLeapYear (y : ℕ) : Bool := y % 4 = 0 && (y % 100 ≠ 0 || y % 400 = 0)

def daysInMonth (y m : ℕ) : ℕ :=
  if m = 2 then (if isLeapYear y then 29 else 28)
  else if m = 4 ∨ m = 6 ∨ m = 9 ∨ m = 11 then 30
  else 31

/-- Format `%Y-%m-%d` with `datetime` range validation. -/
def parseDate (cs : List Char) : Option ((ℕ × ℕ × ℕ) × List Char) := do
  let (y, _, r1) ← parseNum 4 cs
  let r2 ← expectChar '-' r1
  let (m, _, r3) ← parseNum 2 r2
  let r4 ← expectChar '-' r3
  let (d, _, r5) ← parseNum 2 r4
  if 1 ≤ y ∧ 1 ≤ m ∧ m ≤ 12 ∧ 1 ≤ d ∧ d ≤ daysInMonth y m then
    some ((y, m, d), r5)
  else none

/-- Format `%H:%M:%S` with `datetime` range validation. -/
def parseTime (cs : List Char) : Option ((ℕ × ℕ × ℕ) × List Char) := do
  let (h, _, r1) ← parseNum 2 cs
  let r2 ← expectChar ':' r1
  let (mi, _, r3) ← parseNum 2 r2
  let r4 ← expectChar ':' r3
  let (s, _, r5) ← parseNum 2 r4
  if h ≤ 23 ∧ mi ≤ 59 ∧ s ≤ 59 then some ((h, mi, s), r5) else none

/-- Format `%f`: 1–6 digits, zero-padded on the right to microseconds. -/
def parseFrac (cs : List Char) : Option (ℕ × List Char) := do
  let (v, cnt, r) ← parseNum 6 cs
  some (v * 10 ^ (6 - cnt), r)

/-- Format `%z`: `Z`, or a sign followed by `HH[:]MM`. -/
def parseTzOffset : List Char → Option (ℤ × List Char)
  | [] => none
  | c :: cs =>
    if c == 'Z' then some (0, cs)
    else if c == '+' ∨ c == '-' then do
      let (h, cnth, r1) ← parseNum 2 cs
      let r2 := match r1 with
        | ':' :: rest => rest
        | other => other
      let (m, cntm, r3) ← parseNum 2 r2
      if cnth = 2 ∧ cntm = 2 ∧ h ≤ 23 ∧ m ≤ 59 then
        some ((if c == '-' then -((h : ℤ) * 60 + m) else (h : ℤ) * 60 + m), r3)
      else none
    else none

/-- Python `strptime` with format `%Y-%m-%dT%H:%M:%S.%fZ` (naive result). -/
def strptimeFmt1 (cs : List Char) : Option PyDateTime := do
  let ((y, mo, d), r1) ← parseDate cs
  let r2 ← expectChar 'T' r1
  let ((h, mi, s), r3) ← parseTime r2
  let r4 ← expectChar '.' r3
  let (us, r5) ← parseFrac r4
  let r6 ← expectChar 'Z' r5
  if r6.isEmpty then some ⟨y, mo, d, h, mi, s, us, none⟩ else none

/-- Python `strptime` with format `%Y-%m-%dT%H:%M:%SZ` (naive result). -/
def strptimeFmt2 (cs : List Char) : Option PyDateTime := do
  let ((y, mo, d), r1) ← parseDate cs
  let r2 ← expectChar 'T' r1
  let ((h, mi, s), r3) ← parseTime r2
  let r4 ← expectChar 'Z' r3
  if r4.isEmpty then some ⟨y, mo, d, h, mi, s, 0, none⟩ else none

/-- Python `strptime` with format `%Y-%m-%dT%H:%M:%S.%f%z` (aware result). -/
def strptimeFmt3 (cs : List Char) : Option PyDateTime := do
  let ((y, mo, d), r1) ← parseDate cs
  let r2 ← expectChar 'T' r1
  let ((h, mi, s), r3) ← parseTime r2
  let r4 ← expectChar '.' r3
  let (us, r5) ← parseFrac r4
  let (off, r6) ← parseTzOffset r5
  if r6.isEmpty then some ⟨y, mo, d, h, mi, s, us, some off⟩ else none

/-- Fixed-width two-digit field for the ISO profile. -/
def parseNum2 (cs : List Char) : Option (ℕ × List Char) := do
  let (v, cnt, r) ← parseNum 2 cs
  if cnt = 2 then some (v, r) else none

/-- Python `datetime.fromisoformat` on the canonical zero-padded profile
`YYYY-MM-DD[{T,space}HH:MM[:SS[.f{1,6}]][±HH:MM]]` (lenient unpadded forms
accepted by newer Pythons are not modelled). -/
def fromisoformatLite (cs : List Char) : Option PyDateTime := do
  let (y, cnty, r0) ← parseNum 4 cs
  let r1 ← expectChar '-' r0
  let (mo, r2) ← parseNum2 r1
  let r3 ← expectChar '-' r2
  let (d, r4) ← parseNum2 r3
  if ¬(cnty = 4 ∧ 1 ≤ y ∧ 1 ≤ mo ∧ mo ≤ 12 ∧ 1 ≤ d ∧ d ≤ daysInMonth y mo) then
    none
  else
    match r4 with
    | [] => some ⟨y, mo, d, 0, 0, 0, 0, none⟩
    | c :: rest =>
      if c == 'T' ∨ c == ' ' then do
        let (h, r5) ← parseNum2 rest
        let r6 ← expectChar ':' r5
        let (mi, r7) ← parseNum2 r6
        if ¬(h ≤ 23 ∧ mi ≤ 59) then none
        else do
          let (s, us, r8) ← (do
            match r7 with
            | ':' :: r => do
              let (s, r') ← parseNum2 r
              if s ≤ 59 then
                match r' with
                | '.' :: rf => do
                  let (us, r'') ← parseFrac rf
                  some (s, us, r'')
                | other => some (s, 0, other)
              else none
            | other => some (0, 0, other))
          match r8 with
          | [] => some ⟨y, mo, d, h, mi, s, us, none⟩
          | o :: orest =>
            if o == '+' ∨ o == '-' then do
              let (oh, r9) ← parseNum2 orest
              let r10 ← expectChar ':' r9
              let (om, r11) ← parseNum2 r10
              if r11.isEmpty ∧ oh ≤ 23 ∧ om ≤ 59 then
                some ⟨y, mo, d, h, mi, s, us,
                  some (if o == '-' then -((oh : ℤ) * 60 + om) else (oh : ℤ) * 60 + om)⟩
              else none
            else none
      else none

/-- The method `CostsLogger.parse_timestamp`: the strptime fallback chain. -/
def CostsLogger.parse_timestamp (s : String) : Option PyDateTime :=
  let s1 := replaceSub "+00:00".data "Z".data s.data
  match strptimeFmt1 s1 with
  | some dt => some dt
  | none =>
    match strptimeFmt2 s1 with
    | some dt => some dt
    | none =>
      match strptimeFmt3 s1 with
      | some dt => some dt
      | none => fromisoformatLite (replaceSub "Z".data "+00:00".data s.data)

/-- Days since 1970-01-01 of a proleptic Gregorian date (year ≥ 1). -/
def daysFromCivil (y m d : ℤ) : ℤ :=
  let y' := if m ≤ 2 then y - 1 else y
  let era := Int.fdiv y' 400
  let yoe := y' - era * 400
  let mp := Int.emod (m + 9) 12
  let doy := Int.fdiv (153 * mp + 2) 5 + d - 1
  let doe := yoe * 365 + Int.fdiv yoe 4 - Int.fdiv yoe 100 + doy
  era * 146097 + doe - 719468

/-- Microseconds since the epoch ignoring the UTC offset field. -/
def PyDateTime.naiveEpochMicro (dt : PyDateTime) : ℤ :=
  (daysFromCivil dt.year dt.month dt.day * 86400 +
    (dt.hour : ℤ) * 3600 + (dt.minute : ℤ) * 60 + dt.second) * 1000000 + dt.micro

/-- Datetime subtraction `(a - b).total_seconds()`: defined when both are naive or
both aware; mixing them raises `TypeError` (caught by `extraction`'s
outer handler). -/
def pySubSeconds (a b : PyDateTime) : Except String ℚ :=
  match a.tzMin, b.tzMin with
  | none, none => .ok (mkRat (a.naiveEpochMicro - b.naiveEpochMicro) 1000000)
  | some x, some y =>
    .ok (mkRat ((a.naiveEpochMicro - x * 60000000) - (b.naiveEpochMicro - y * 60000000)) 1000000)
  | _, _ => .error "TypeError: cannot subtract offset-naive and offset-aware datetimes"

/-! ## Transcript model and `CostsLogger.extraction`

A transcript is newline-delimited JSON; `extraction` collects the parsed
lines into `messages` (skipping blank lines and JSON decode failures, but
keeping parsed non-dict values), then detects the model, computes the
duration, sums token usage and computes the cost.  Any exception raised
inside the `try` block (mixed naive/aware timestamp subtraction, a non-dict
`message.usage` hitting `.get`) jumps to the handler, which records
`transcript_parse_error` and keeps the fields already set. -/

structure UsageDict where
  input_tokens : Option ℤ := none
  output_tokens : Option ℤ := none
  cache_read_input_tokens : Option ℤ := none
  cache_creation_input_tokens : Option ℤ := none
deriving DecidableEq

/-- A JSON value under a `usage` key: a token-count dict, or any non-dict
value (only dict-ness matters to the code). -/
inductive UsageVal
  | udict (u : UsageDict)
  | unondict
deriving DecidableEq

/-- The nested `message` object of a transcript entry, when it is a dict. -/
structure InnerMessage where
  model : Option String := none
  usage : Option UsageVal := none
deriving DecidableEq

inductive InnerMessageVal
  | mdict (m : InnerMessage)
  | mnondict
deriving DecidableEq

structure MetadataDict where
  model : Option String := none
deriving DecidableEq

inductive MetadataVal
  | mddict (m : MetadataDict)
  | mdnondict
deriving DecidableEq

/-- A transcript entry that parsed to a JSON dict. -/
structure TranscriptMsg where
  model : Option String := none
  message : Option InnerMessageVal := none
  metadata : Option MetadataVal := none
  timestamp : Option String := none
  usage : Option UsageVal := none
deriving DecidableEq

/-- One raw line of the transcript JSONL file. -/
inductive TranscriptLine
  | blank
  | badJson
  | nonDictJson
  | msg (m : TranscriptMsg)
deriving DecidableEq

/-- A parsed element of the `messages` list. -/
inductive ParsedMsg
  | nonDict
  | dict (m : TranscriptMsg)
deriving DecidableEq

/-- The line-reading loop: blank lines and decode errors are skipped, every
successfully parsed value is kept. -/
def parseTranscriptLines : List TranscriptLine → List ParsedMsg
  | [] => []
  | .blank :: r => parseTranscriptLines r
  | .badJson :: r => parseTranscriptLines r
  | .nonDictJson :: r => .nonDict :: parseTranscriptLines r
  | .msg m :: r => .dict m :: parseTranscriptLines r

/-- The method `CostsLogger.detect_model_from_transcript`: first message (in order)
carrying a model at top level, inside `message`, or inside `metadata`. -/
def CostsLogger.detect_model_from_transcript : List ParsedMsg → Option String
  | [] => none
  | .nonDict :: rest => CostsLogger.detect_model_from_transcript rest
  | .dict m :: rest =>
    match m.model with
    | some v => some v
    | none =>
      match (match m.message with
             | some (.mdict im) => im.model
             | _ => none) with
      | some v => some v
      | none =>
        match (match m.metadata with
               | some (.mddict md) => md.model
               | _ => none) with
        | some v => some v
        | none => CostsLogger.detect_model_from_transcript rest

/-- The timestamp-collection loop: parseable timestamps in message order. -/
def collectTimestamps : List ParsedMsg → List PyDateTime
  | [] => []
  | .nonDict :: r => collectTimestamps r
  | .dict m :: r =>
    match m.timestamp with
    | none => collectTimestamps r
    | some ts =>
      match CostsLogger.parse_timestamp ts with
      | none => collectTimestamps r
      | some dt => dt :: collectTimestamps r

def lastOf (x : α) : List α → α
  | [] => x
  | y :: ys => lastOf y ys

/-- The duration computation: with ≥ 2 valid timestamps, subtract first from
last (`.ok (some d)`), else no duration (`.ok none`); a mixed naive/aware
subtraction propagates `TypeError` (`.error`). -/
def durationStep (tss : List PyDateTime) : Except String (Option ℚ) :=
  match tss with
  | t1 :: t2 :: rest => (pySubSeconds (lastOf t2 rest) t1).map some
  | _ => .ok none

/-- The human-readable duration string built from `int(duration_seconds)`
via `divmod` (floor division, as in Python). -/
def formatDuration (n : ℤ) : String :=
  let hours := Int.fdiv n 3600
  let remainder := Int.fmod n 3600
  let minutes := Int.fdiv remainder 60
  let seconds := Int.fmod remainder 60
  if hours > 0 then s!"{hours}h {minutes}m {seconds}s"
  else if minutes > 0 then s!"{minutes}m {seconds}s"
  else s!"{seconds}s"

structure TotalTokens where
  input : ℤ
  output : ℤ
  total : ℤ
deriving DecidableEq

structure CacheUsage where
  cache_read : ℤ
  cache_write : ℤ
deriving DecidableEq

/-- Python `f"{q:.4f}"` (round half to even, 4 decimals). -/
def fmtFixed4 (q : ℚ) : String :=
  let scaled := pyRoundHalfEven (q * 10000)
  let sign := if scaled < 0 then "-" else ""
  let a := scaled.natAbs
  let fs := toString (a % 10000)
  sign ++ toString (a / 10000) ++ "." ++
    String.mk (List.replicate (4 - fs.length) '0') ++ fs

/-- The `cost_data` dict produced by `CostsLogger.extraction`. -/
structure CostData where
  message_count : Option ℕ := none
  model : Option String := none
  duration_seconds : Option ℚ := none
  duration_formatted : Option String := none
  token_usage_details : Option (List UsageVal) := none
  total_tokens : Option TotalTokens := none
  cache_usage : Option CacheUsage := none
  cost_usd : Option ℚ := none
  cost_formatted : Option String := none
  cost_calculation_note : Option String := none
  transcript_parse_error : Option String := none
deriving DecidableEq

/-- The token-usage collection loop.  A top-level `usage` value is appended
whatever it is; a dict `message` with a non-dict `usage` raises
`AttributeError` at the incremental `usage.get(...)` accumulation. -/
def collectUsage : List ParsedMsg → Except String (List UsageVal)
  | [] => .ok []
  | .nonDict :: r => collectUsage r
  | .dict m :: r =>
    match m.usage with
    | some u => (collectUsage r).map (u :: ·)
    | none =>
      match m.message with
      | some (.mdict im) =>
        match im.usage with
        | some (.udict u) => (collectUsage r).map (UsageVal.udict u :: ·)
        | some .unondict => .error "AttributeError: usage value has no attribute get"
        | none => collectUsage r
      | _ => collectUsage r

/-- Sum one token field over the collected usage entries, skipping non-dict
entries (`isinstance(u, dict)` filter in the sum comprehensions). -/
def sumUsage (f : UsageDict → Option ℤ) : List UsageVal → ℤ
  | [] => 0
  | .udict u :: r => getTok (f u) + sumUsage f r
  | .unondict :: r => sumUsage f r

/-- The assignment `if model: cost_data["model"] = model` (truthiness: `None` and `""`
are both falsy). -/
def modelPhase (model : Option String) (cd : CostData) : CostData :=
  match model with
  | some m => if m ≠ "" then { cd with model := some m } else cd
  | none => cd

/-- The duration assignments (`round(d, 2)` and the formatted string). -/
def durationPhase (cd : CostData) (od : Option ℚ) : CostData :=
  match od with
  | none => cd
  | some d =>
    { cd with duration_seconds := some (pyRound d 2),
              duration_formatted := some (formatDuration (pyInt d)) }

/-- The `if model:` tail of `extraction`: cost in USD when the model is
priced, an explanatory note otherwise (`model` of `None` or `""` is falsy
and skips the whole step). -/
def costPhase (pricing : List (String × ModelPricing)) (model : Option String)
    (ti tout cr cw : ℤ) (cd : CostData) : CostData :=
  match model with
  | some m =>
    if m ≠ "" then
      match CostsLogger.calculate_cost pricing ⟨some ti, some tout, some cw, some cr⟩ m with
      | some c => { cd with cost_usd := some c, cost_formatted := some ("$" ++ fmtFixed4 c) }
      | none =>
        { cd with cost_calculation_note := some ("Pricing not available for model: " ++ m) }
    else cd
  | none => cd

/-- The `if token_usage:` tail of `extraction`: totals, cache usage and cost
(each key only set when Python's truthiness test passes). -/
def usagePhase (pricing : List (String × ModelPricing)) (model : Option String)
    (tu : List UsageVal) (cd : CostData) : CostData :=
  if tu.isEmpty then cd
  else
    let cd := { cd with token_usage_details := some tu }
    let ti := sumUsage (·.input_tokens) tu
    let tout := sumUsage (·.output_tokens) tu
    let cr := sumUsage (·.cache_read_input_tokens) tu
    let cw := sumUsage (·.cache_creation_input_tokens) tu
    let cd := if ti ≠ 0 ∨ tout ≠ 0 then
        { cd with total_tokens := some ⟨ti, tout, ti + tout⟩ } else cd
    let cd := if cr ≠ 0 ∨ cw ≠ 0 then
        { cd with cache_usage := some ⟨cr, cw⟩ } else cd
    costPhase pricing model ti tout cr cw cd

/-- The method `CostsLogger.extraction` (the `cost_data` value), with the pricing table
passed explicitly and the transcript given as its parsed lines; the
transcript file itself is assumed readable. -/
def CostsLogger.extraction (pricing : List (String × ModelPricing))
    (lines : List TranscriptLine) : CostData :=
  let messages := parseTranscriptLines lines
  let cd : CostData := { message_count := some messages.length }
  let model := CostsLogger.detect_model_from_transcript messages
  let cd := modelPhase model cd
  match durationStep (collectTimestamps messages) with
  | .error e => { cd with transcript_parse_error := some e }
  | .ok od =>
    let cd := durationPhase cd od
    match collectUsage messages with
    | .error e => { cd with transcript_parse_error := some e }
    | .ok tu => usagePhase pricing model tu cd

/-! ## `CostsLogger.aggregation`

Rescans every `*.json` session file in the costs directory, sums totals,
builds the date-sorted session list and writes the summary next to the
directory.  The whole body sits in one `try`: a session file that fails to
parse aborts the entire aggregation (warning printed, nothing written),
while the surrounding hook still exits 0.  The pre-existing aggregation
file's `created_date` is modelled by the `Option String` the code ends up
with after its inner `try` (missing file, unreadable file and absent key all
give `none`). -/

structure TotalTokensFile where
  input : Option ℤ := none
  output : Option ℤ := none
  total : Option ℤ := none
deriving DecidableEq

structure CacheUsageFile where
  cache_write : Option ℤ := none
  cache_read : Option ℤ := none
deriving DecidableEq

/-- The `cost_data` payload of a stored session file (dict-shaped). -/
structure CostDataFile where
  duration_formatted : Option String := none
  cost_usd : Option ℚ := none
  total_tokens : Option TotalTokensFile := none
  cache_usage : Option CacheUsageFile := none
deriving DecidableEq

/-- A stored costs session file (dict-shaped). -/
structure CostSessionFile where
  session_id : Option String := none
  timestamp : Option String := none
  cost_data : Option CostDataFile := none
deriving DecidableEq

/-- One element of the aggregation's `sessions` list. -/
structure SessionEntry where
  session_id : Option String
  date : Option String
  duration : Option String
  cost_usd : ℚ
deriving DecidableEq

/-- The written `costs_aggregation.json` content. -/
structure CostsAggregation where
  created_date : String
  last_update : String
  session_count : ℕ
  total_tokens : TotalTokens
  cache_usage : CacheUsage
  cost_usd : ℚ
  cost_formatted : String
  sessions : List SessionEntry
deriving DecidableEq

/-- Reading all globbed session files in order; the first decode error
raises out of the loop. -/
def readAllFiles : List (Option α) → Except String (List α)
  | [] => .ok []
  | none :: _ => .error "JSONDecodeError while reading a session file"
  | some f :: r => (readAllFiles r).map (f :: ·)

def sessionEntryOf (f : CostSessionFile) : SessionEntry :=
  let cd := f.cost_data.getD {}
  ⟨f.session_id, f.timestamp, cd.duration_formatted, cd.cost_usd.getD 0⟩

def fileTokens (f : CostSessionFile) : TotalTokens :=
  match (f.cost_data.getD {}).total_tokens with
  | some t => ⟨getTok t.input, getTok t.output, getTok t.total⟩
  | none => ⟨0, 0, 0⟩

def fileCache (f : CostSessionFile) : CacheUsage :=
  let c := (f.cost_data.getD {}).cache_usage.getD {}
  ⟨getTok c.cache_read, getTok c.cache_write⟩

def sumTokens : List CostSessionFile → TotalTokens
  | [] => ⟨0, 0, 0⟩
  | f :: r =>
    let t := fileTokens f
    let s := sumTokens r
    ⟨t.input + s.input, t.output + s.output, t.total + s.total⟩

def sumCache : List CostSessionFile → CacheUsage
  | [] => ⟨0, 0⟩
  | f :: r =>
    let c := fileCache f
    let s := sumCache r
    ⟨c.cache_read + s.cache_read, c.cache_write + s.cache_write⟩

def sumCost : List CostSessionFile → ℚ
  | [] => 0
  | f :: r => (f.cost_data.getD {}).cost_usd.getD 0 + sumCost r

/-- Stable insertion keeping existing elements with `le`-smaller-or-equal
keys in front: the canonical result of Python's stable `list.sort`. -/
def stableInsert (le : α → α → Bool) (a : α) : List α → List α
  | [] => [a]
  | b :: bs => if le b a then b :: stableInsert le a bs else a :: b :: bs

def stableSort (le : α → α → Bool) (l : List α) : List α :=
  l.foldl (fun acc x => stableInsert le x acc) []

/-- Code-point lexicographic `≤` on char lists (Python string comparison). -/
def charListLe : List Char → List Char → Bool
  | [], _ => true
  | _ :: _, [] => false
  | a :: as, b :: bs => if a == b then charListLe as bs else decide (a < b)

def pyStrLe (a b : String) : Bool := charListLe a.data b.data

/-- The sort key `x['date'] if x['date'] else ''`. -/
def dateKey (e : SessionEntry) : String := e.date.getD ""

/-- The expression `existing_created_date if existing_created_date else now` (Python
truthiness: `None` and `""` both fall back to `now`). -/
def createdDateOf (existingCreatedDate : Option String) (now : String) : String :=
  match existingCreatedDate with
  | some s => if s = "" then now else s
  | none => now

/-- The body of `CostsLogger.aggregation`'s `try` block. -/
def CostsLogger.aggregationBody (existingCreatedDate : Option String)
    (files : List (Option CostSessionFile)) (now : String) :
    Except String CostsAggregation := do
  let contents ← readAllFiles files
  let sessions := stableSort (fun a b => pyStrLe (dateKey a) (dateKey b))
    (contents.map sessionEntryOf)
  let costSum := sumCost contents
  .ok ⟨createdDateOf existingCreatedDate now, now, sessions.length, sumTokens contents,
    sumCache contents, pyRound costSum 4, "$" ++ fmtFixed4 costSum, sessions⟩

/-- The method `CostsLogger.aggregation`: `some` = summary written, `none` = the
`except Exception` handler ran (warning printed, nothing written). -/
def CostsLogger.aggregation (existingCreatedDate : Option String)
    (files : List (Option CostSessionFile)) (now : String) : Option CostsAggregation :=
  match CostsLogger.aggregationBody existingCreatedDate files now with
  | .ok a => some a
  | .error _ => none

/-! ## `UserInputsLogger.aggregation`

Rereads every session file and appends each file's whole `user_inputs` list
to `inputs` (one element per file); there is no `try` around the reads, so a
decode error propagates to the caller. -/

/-- One extracted user-input record. -/
structure InputRecord where
  input : String
  type : String
  question : Option String := none
deriving DecidableEq

/-- A stored user-inputs session file (dict-shaped). -/
structure UserSessionFile where
  timestamp : Option String := none
  user_inputs : Option (List InputRecord) := none
deriving DecidableEq

/-- The body of `UserInputsLogger.aggregation`: the value written under
`inputs` (an outer list with one inner list per session file, in glob
order), or the escaping decode error. -/
def UserInputsLogger.aggregationBody :
    List (Option UserSessionFile) → Except String (List (List InputRecord))
  | [] => .ok []
  | none :: _ => .error "JSONDecodeError while reading a session file"
  | some f :: r => (UserInputsLogger.aggregationBody r).map (f.user_inputs.getD [] :: ·)

/-! ## `BaseLogger` -/

structure HookInformation where
  session_id : String
  exit_reason : String
  transcript_path : String
  workspace_dir : String
  working_directory : String
deriving DecidableEq

/-- How `BaseLogger.hook_information` terminates. -/
inductive HookInfoResult
  | ok (hi : HookInformation)
  | keyError (key : String)
  | exitedWithError
deriving DecidableEq

def lookupStr (obj : List (String × String)) (k : String) : Option String :=
  (obj.find? (fun kv => kv.1 == k)).map (·.2)

/-- The method `BaseLogger.hook_information`: stdin is `none` when `json.load` raises
`JSONDecodeError` (caught: message printed, `sys.exit(1)`), else the parsed
object; a missing key raises `KeyError`, which no handler catches.  The
workspace-directory resolver's result is passed in as a value (it is
evaluated last, after all four subscripts). -/
def BaseLogger.hook_information (workspaceDir : String)
    (stdin : Option (List (String × String))) : HookInfoResult :=
  match stdin with
  | none => .exitedWithError
  | some obj =>
    match lookupStr obj "session_id" with
    | none => .keyError "session_id"
    | some sid =>
      match lookupStr obj "reason" with
      | none => .keyError "reason"
      | some r =>
        match lookupStr obj "transcript_path" with
        | none => .keyError "transcript_path"
        | some tp =>
          match lookupStr obj "cwd" with
          | none => .keyError "cwd"
          | some cwd => .ok ⟨sid, r, tp, workspaceDir, cwd⟩

inductive HookExit
  | exit0
  | exit1
deriving DecidableEq

/-- The tail of `BaseLogger.run` after a successful per-session write: the
`try` block continues into aggregation; an exception escaping aggregation is
caught by `run`'s handler (`Error writing session data`) and exits 1,
otherwise `run` exits 0. -/
def BaseLogger.runAfterWrite (agg : Except String Unit) : HookExit :=
  match agg with
  | .ok _ => .exit0
  | .error _ => .exit1

/-- What `CostsLogger.aggregation` lets escape: nothing — its own
`except Exception` swallows every error as a warning. -/
def CostsLogger.aggregationExc (existingCreatedDate : Option String)
    (files : List (Option CostSessionFile)) (now : String) : Except String Unit :=
  match CostsLogger.aggregationBody existingCreatedDate files now with
  | .ok _ => .ok ()
  | .error _ => .ok ()

/-- What `UserInputsLogger.aggregation` lets escape: any read error — it has
no handler of its own. -/
def UserInputsLogger.aggregationExc (files : List (Option UserSessionFile)) :
    Except String Unit :=
  match UserInputsLogger.aggregationBody files with
  | .ok _ => .ok ()
  | .error e => .error e

/-! ## `SessionEndOrchestrator` -/

/-- How one hook's `run` terminates: normally, by its own `sys.exit`, or by
raising some other exception. -/
inductive HookOutcome
  | ok
  | exitsWith (code : ℤ)
  | raises (msg : String)
deriving DecidableEq

inductive PyExc
  | systemExit (code : ℤ)
  | exception (msg : String)
deriving DecidableEq

def raiseOf : HookOutcome → Option PyExc
  | .ok => none
  | .exitsWith c => some (.systemExit c)
  | .raises m => some (.exception m)

/-- The orchestrator's `except` clauses: `SystemExit` → `pass`,
`Exception` → warning; `none` = handled, `some` = would propagate. -/
def handleHookExc : PyExc → Option PyExc
  | .systemExit _ => none
  | .exception _ => none

/-- The hook loop: returns the names of hooks whose `run` was invoked and
the exception escaping the loop, if any (an unhandled exception aborts the
remaining iterations). -/
def orchLoop : List (String × HookOutcome) → List String × Option PyExc
  | [] => ([], none)
  | (name, out) :: rest =>
    match (raiseOf out).bind handleHookExc with
    | some e => ([name], some e)
    | none =>
      let (ns, e) := orchLoop rest
      (name :: ns, e)

structure OrchResult where
  hooksRun : List String
  outcome : PyExc
deriving DecidableEq

/-- The method `SessionEndOrchestrator.run`: the fixed hook list, then `sys.exit(0)`
(which itself raises `SystemExit(0)`). -/
def SessionEndOrchestrator.run (costs userInputs git : HookOutcome) : OrchResult :=
  match orchLoop [("Cost Logger", costs), ("User Input Logger", userInputs),
      ("Git Commit Plugin", git)] with
  | (ns, some e) => ⟨ns, e⟩
  | (ns, none) => ⟨ns, .systemExit 0⟩

/-! ## Paths of the aggregation files (for the glob/no-self-count claim) -/

def CostsLogger.session_directory (workspace : List String) : List String :=
  workspace ++ [".cpa-workflow-artifacts", "costs"]

def UserInputsLogger.session_directory (workspace : List String) : List String :=
  workspace ++ [".cpa-workflow-artifacts", "user_inputs"]

/-- The path `session_directory.parent / name`. -/
def aggregatedFilePath (sessionDir : List String) (name : String) : List String :=
  sessionDir.dropLast ++ [name]

def pyEndsWith (s suf : String) : Bool :=
  isPrefixOfChars suf.data.reverse s.data.reverse

/-- Membership in `session_directory.glob("*.json")`: a file directly inside
the directory whose name ends in `.json`. -/
def globJson (sessionDir : List String) (file : List String) : Prop :=
  file.dropLast = sessionDir ∧
    ∃ name, file.getLast? = some name ∧ pyEndsWith name ".json" = true

/-! ## Theorems -/

/-- C4: for every combination of hook outcomes (normal return, own
`sys.exit`, unexpected exception), `SessionEndOrchestrator.run` still runs
every hook in the fixed order CostsLogger, UserInputsLogger, GitCommitPlugin,
and itself exits 0. -/
theorem c4_orchestrator_failure_isolation (costs userInputs git : HookOutcome) :
    (SessionEndOrchestrator.run costs userInputs git).hooksRun =
      ["Cost Logger", "User Input Logger", "Git Commit Plugin"] ∧
    (SessionEndOrchestrator.run costs userInputs git).outcome = PyExc.systemExit 0 := by
  cases costs <;> cases userInputs <;> cases git <;> exact ⟨rfl, rfl⟩

/-- C9: a stdin payload that is valid JSON but lacks a required key makes
`BaseLogger.hook_information` raise an uncaught `KeyError` (not the
caught-and-logged exit-1 path); only a JSON decode failure takes the
`Error parsing hook input` exit-1 branch. -/
theorem c9_missing_key_raises_keyerror (workspaceDir : String)
    (obj : List (String × String))
    (h : lookupStr obj "session_id" = none ∨ lookupStr obj "reason" = none ∨
         lookupStr obj "transcript_path" = none ∨ lookupStr obj "cwd" = none) :
    (∃ k, BaseLogger.hook_information workspaceDir (some obj) = .keyError k) ∧
    BaseLogger.hook_information workspaceDir (some obj) ≠ .exitedWithError ∧
    BaseLogger.hook_information workspaceDir none = .exitedWithError := by
  have hk : ∃ k, BaseLogger.hook_information workspaceDir (some obj) = .keyError k := by
    cases h1 : lookupStr obj "session_id" with
    | none => exact ⟨"session_id", by simp [BaseLogger.hook_information, h1]⟩
    | some sid =>
      cases h2 : lookupStr obj "reason" with
      | none => exact ⟨"reason", by simp [BaseLogger.hook_information, h1, h2]⟩
      | some r =>
        cases h3 : lookupStr obj "transcript_path" with
        | none => exact ⟨"transcript_path", by simp [BaseLogger.hook_information, h1, h2, h3]⟩
        | some tp =>
          cases h4 : lookupStr obj "cwd" with
          | none => exact ⟨"cwd", by simp [BaseLogger.hook_information, h1, h2, h3, h4]⟩
          | some cwd => simp_all
  rcases hk with ⟨k, hk⟩
  refine ⟨⟨k, hk⟩, ?_, rfl⟩
  rw [hk]
  simp

/-- Closed witness for C9: a payload with `session_id`, `transcript_path`
and `cwd` but no `reason` key ends in a `KeyError`. -/
theorem c9_missing_key_raises_keyerror_witness :
    lookupStr [("session_id", "s"), ("transcript_path", "t"), ("cwd", "c")] "reason" = none ∧
    (∃ k, BaseLogger.hook_information "ws"
      (some [("session_id", "s"), ("transcript_path", "t"), ("cwd", "c")]) = .keyError k) :=
  ⟨rfl, (c9_missing_key_raises_keyerror "ws"
    [("session_id", "s"), ("transcript_path", "t"), ("cwd", "c")]
    (Or.inr (Or.inl rfl))).1⟩

theorem dropLast_append_two (ws : List String) (a c : String) :
    (ws ++ [a, c]).dropLast = ws ++ [a] := by
  have h : ws ++ [a, c] = (ws ++ [a]) ++ [c] := by simp
  rw [h, List.dropLast_concat]

/-- C10: each aggregation summary file lives in the parent of its category's
session directory, while the rescan globs `*.json` only inside the session
directory itself, so the aggregation file is never among the globbed session
files (it cannot contribute to its own `session_count` or totals). -/
theorem c10_aggregation_file_not_globbed (ws : List String) :
    ¬ globJson (CostsLogger.session_directory ws)
        (aggregatedFilePath (CostsLogger.session_directory ws) "costs_aggregation.json") ∧
    ¬ globJson (UserInputsLogger.session_directory ws)
        (aggregatedFilePath (UserInputsLogger.session_directory ws)
          "user_inputs_aggregation.json") := by
  constructor
  · rintro ⟨hdir, -⟩
    rw [CostsLogger.session_directory, aggregatedFilePath, dropLast_append_two] at hdir
    have hlen := congrArg List.length hdir
    simp at hlen
  · rintro ⟨hdir, -⟩
    rw [UserInputsLogger.session_directory, aggregatedFilePath, dropLast_append_two] at hdir
    have hlen := congrArg List.length hdir
    simp at hlen

/-- C5 counterexample: with a pricing entry of 0.49 USD per 1M input tokens
(0.49/10^6 per token), one input token rounds to cost 0 but two input tokens
round to 0.000001, so doubling all token counts does not double the returned
(rounded) cost. -/
theorem c5_counterexample :
    CostsLogger.calculate_cost [("model-x", ⟨49/100000000, 0, 0, 0⟩)]
        ⟨some 2, some 0, some 0, some 0⟩ "model-x" ≠
      Option.map (fun c => 2 * c)
        (CostsLogger.calculate_cost [("model-x", ⟨49/100000000, 0, 0, 0⟩)]
          ⟨some 1, some 0, some 0, some 0⟩ "model-x") := by
  have hl : lookupKey [("model-x", (⟨49/100000000, 0, 0, 0⟩ : ModelPricing))]
      (normalizeModelName [("model-x", ⟨49/100000000, 0, 0, 0⟩)] "model-x") =
      some ⟨49/100000000, 0, 0, 0⟩ := rfl
  have h1 : CostsLogger.calculate_cost [("model-x", ⟨49/100000000, 0, 0, 0⟩)]
      ⟨some 1, some 0, some 0, some 0⟩ "model-x" = some 0 := by
    unfold CostsLogger.calculate_cost
    rw [hl]
    norm_num [linearCost, getTok, pyRound, pyRoundHalfEven]
  have h2 : CostsLogger.calculate_cost [("model-x", ⟨49/100000000, 0, 0, 0⟩)]
      ⟨some 2, some 0, some 0, some 0⟩ "model-x" = some (1/1000000) := by
    unfold CostsLogger.calculate_cost
    rw [hl]
    norm_num [linearCost, getTok, pyRound, pyRoundHalfEven]
  rw [h1, h2]
  simp

/-- C5 (amended): whenever the model resolves to a pricing entry `p`,
`calculate_cost` returns exactly the linear combination
`input·price_in + output·price_out + cache_write·price_cw +
cache_read·price_cr` rounded to 6 decimal places, and doubling all four
token counts doubles the pre-rounding cost (the rounded result may differ
from twice the rounded cost by up to one rounding unit). -/
theorem c5_cost_linear_rounded (pricing : List (String × ModelPricing))
    (tc : TokenCounts) (model : String) (p : ModelPricing)
    (h : CostsLogger.resolvePricing pricing model = some p) :
    CostsLogger.calculate_cost pricing tc model = some (pyRound (linearCost p tc) 6) ∧
    ∀ i o cw cr : ℤ,
      linearCost p ⟨some (2 * i), some (2 * o), some (2 * cw), some (2 * cr)⟩ =
        2 * linearCost p ⟨some i, some o, some cw, some cr⟩ := by
  constructor
  · unfold CostsLogger.resolvePricing at h
    unfold CostsLogger.calculate_cost
    rw [h]
  · intro i o cw cr
    simp only [linearCost, getTok, Option.getD_some]
    push_cast
    ring

/-- Closed witness for C5 (amended): 1000 input / 500 output tokens at
3 and 15 USD per 1M tokens cost 0.0105 USD, and doubling the token counts
doubles the pre-rounding cost. -/
theorem c5_cost_linear_rounded_witness :
    CostsLogger.calculate_cost
        [("claude-sonnet-4-5", ⟨3/1000000, 15/1000000, 0, 0⟩)]
        ⟨some 1000, some 500, some 0, some 0⟩ "claude-sonnet-4-5" = some (21/2000) ∧
    linearCost ⟨3/1000000, 15/1000000, 0, 0⟩ ⟨some 2000, some 1000, some 0, some 0⟩ =
      2 * linearCost ⟨3/1000000, 15/1000000, 0, 0⟩ ⟨some 1000, some 500, some 0, some 0⟩ := by
  have h := c5_cost_linear_rounded
    [("claude-sonnet-4-5", ⟨3/1000000, 15/1000000, 0, 0⟩)]
    ⟨some 1000, some 500, some 0, some 0⟩ "claude-sonnet-4-5"
    ⟨3/1000000, 15/1000000, 0, 0⟩ rfl
  constructor
  · rw [h.1]
    norm_num [linearCost, getTok, pyRound, pyRoundHalfEven]
  · exact h.2 1000 500 0 0

theorem isPrefixOfChars_trans {a b c : List Char}
    (h1 : isPrefixOfChars a b = true) (h2 : isPrefixOfChars b c = true) :
    isPrefixOfChars a c = true := by
  induction a generalizing b c with
  | nil => simp [isPrefixOfChars]
  | cons x xs ih =>
    cases b with
    | nil => simp [isPrefixOfChars] at h1
    | cons y ys =>
      cases c with
      | nil => simp [isPrefixOfChars] at h2
      | cons z zs =>
        simp only [isPrefixOfChars, Bool.and_eq_true, beq_iff_eq] at h1 h2 ⊢
        exact ⟨h1.1.trans h2.1, ih h1.2 h2.2⟩

/-- The normalization loop resolves `m` to `base` whenever `m` starts with
`base`, every pricing key that `m` starts with is `base`, and `base` is a
key of the table. -/
theorem normalize_eq_base (pricing : List (String × ModelPricing)) (m base : String)
    (hsw : pyStartsWith m base = true)
    (honly : ∀ kv ∈ pricing, pyStartsWith m kv.1 = true → kv.1 = base)
    (hmem : (lookupKey pricing base).isSome) :
    normalizeModelName pricing m = base := by
  induction pricing with
  | nil => simp [lookupKey] at hmem
  | cons kv rest ih =>
    by_cases hk : pyStartsWith m kv.1 = true
    · have hkb : kv.1 = base := honly kv (by simp) hk
      simp only [normalizeModelName, List.find?, hk]
      exact hkb
    · have hkf : pyStartsWith m kv.1 = false := by simpa using hk
      have hkb : kv.1 ≠ base := fun he => hk (he ▸ hsw)
      have h1 : normalizeModelName (kv :: rest) m = normalizeModelName rest m := by
        simp only [normalizeModelName, List.find?, hkf]
      rw [h1]
      apply ih
      · intro kv' hm hsw'
        exact honly kv' (by simp [hm]) hsw'
      · have hne : (kv.1 == base) = false := by simpa using hkb
        simpa [lookupKey, List.find?, hne] using hmem

/-- C6 (amended): the normalization in `calculate_cost` is a first-match
scan of the pricing keys for one the model name extends, not a date-suffix
strip.  Whenever the table contains the base entry `claude-sonnet-4-5` and
no other key that `claude-sonnet-4-5-20250929` starts with, both
`claude-sonnet-4-5-20250929` and `claude-sonnet-4-5` resolve to that base
entry. -/
theorem c6_normalization_first_match (pricing : List (String × ModelPricing))
    (p : ModelPricing)
    (hmem : lookupKey pricing "claude-sonnet-4-5" = some p)
    (honly : ∀ kv ∈ pricing,
      pyStartsWith "claude-sonnet-4-5-20250929" kv.1 = true → kv.1 = "claude-sonnet-4-5") :
    CostsLogger.resolvePricing pricing "claude-sonnet-4-5-20250929" = some p ∧
    CostsLogger.resolvePricing pricing "claude-sonnet-4-5" = some p := by
  have hswL : pyStartsWith "claude-sonnet-4-5-20250929" "claude-sonnet-4-5" = true := rfl
  have hswS : pyStartsWith "claude-sonnet-4-5" "claude-sonnet-4-5" = true := rfl
  have hps : isPrefixOfChars "claude-sonnet-4-5".data "claude-sonnet-4-5-20250929".data
      = true := rfl
  have honlyS : ∀ kv ∈ pricing,
      pyStartsWith "claude-sonnet-4-5" kv.1 = true → kv.1 = "claude-sonnet-4-5" := by
    intro kv hm hsw
    apply honly kv hm
    unfold pyStartsWith at hsw ⊢
    exact isPrefixOfChars_trans hsw hps
  have hN1 : normalizeModelName pricing "claude-sonnet-4-5-20250929" = "claude-sonnet-4-5" :=
    normalize_eq_base pricing _ _ hswL honly (by rw [hmem]; rfl)
  have hN2 : normalizeModelName pricing "claude-sonnet-4-5" = "claude-sonnet-4-5" :=
    normalize_eq_base pricing _ _ hswS honlyS (by rw [hmem]; rfl)
  unfold CostsLogger.resolvePricing
  rw [hN1, hN2]
  exact ⟨hmem, hmem⟩

/-- C6 counterexample: a pricing table containing the base entry
`claude-sonnet-4-5` but listing a key `claude-sonnet-4-5-2` before it makes
the two model names resolve to different pricing entries, refuting the
claim's `for every pricing table containing the base entry`. -/
theorem c6_counterexample :
    CostsLogger.resolvePricing
        [("claude-sonnet-4-5-2", ⟨1, 0, 0, 0⟩), ("claude-sonnet-4-5", ⟨2, 0, 0, 0⟩)]
        "claude-sonnet-4-5-20250929" ≠
      CostsLogger.resolvePricing
        [("claude-sonnet-4-5-2", ⟨1, 0, 0, 0⟩), ("claude-sonnet-4-5", ⟨2, 0, 0, 0⟩)]
        "claude-sonnet-4-5" := by
  have h1 : CostsLogger.resolvePricing
      [("claude-sonnet-4-5-2", ⟨1, 0, 0, 0⟩), ("claude-sonnet-4-5", ⟨2, 0, 0, 0⟩)]
      "claude-sonnet-4-5-20250929" = some ⟨1, 0, 0, 0⟩ := rfl
  have h2 : CostsLogger.resolvePricing
      [("claude-sonnet-4-5-2", ⟨1, 0, 0, 0⟩), ("claude-sonnet-4-5", ⟨2, 0, 0, 0⟩)]
      "claude-sonnet-4-5" = some ⟨2, 0, 0, 0⟩ := rfl
  intro hc
  rw [h1, h2] at hc
  have hfield : (1 : ℚ) = 2 :=
    congrArg (fun o => (o.getD ⟨0, 0, 0, 0⟩).input) hc
  norm_num at hfield

/-- Closed witness for C6 (amended): in a one-entry table holding only the
base model, both names resolve to the base entry. -/
theorem c6_normalization_first_match_witness :
    CostsLogger.resolvePricing [("claude-sonnet-4-5", ⟨3, 15, 4, 1⟩)]
        "claude-sonnet-4-5-20250929" = some ⟨3, 15, 4, 1⟩ ∧
    CostsLogger.resolvePricing [("claude-sonnet-4-5", ⟨3, 15, 4, 1⟩)]
        "claude-sonnet-4-5" = some ⟨3, 15, 4, 1⟩ := by
  apply c6_normalization_first_match
  · rfl
  · intro kv hm _
    simp only [List.mem_singleton] at hm
    rw [hm]

theorem aggregationBody_eq (ecd : Option String) (files : List (Option CostSessionFile))
    (now : String) :
    CostsLogger.aggregationBody ecd files now =
      (readAllFiles files).map (fun contents =>
        let sessions := stableSort (fun a b => pyStrLe (dateKey a) (dateKey b))
          (contents.map sessionEntryOf)
        let costSum := sumCost contents
        ⟨createdDateOf ecd now, now, sessions.length, sumTokens contents,
          sumCache contents, pyRound costSum 4, "$" ++ fmtFixed4 costSum, sessions⟩) := by
  unfold CostsLogger.aggregationBody
  cases readAllFiles files <;> rfl

theorem createdDateOf_ne_empty (ecd : Option String) (now : String) (h : now ≠ "") :
    createdDateOf ecd now ≠ "" := by
  cases ecd with
  | none => simpa [createdDateOf] using h
  | some s => by_cases hs : s = "" <;> simp [createdDateOf, hs, h]

/-- C1: rerunning `CostsLogger.aggregation` over the same session files,
with the first run's summary on disk, reproduces `created_date`,
`session_count`, `total_tokens`, `cache_usage` and `cost_usd` and refreshes
only `last_update` (the run timestamp is a nonempty ISO string). -/
theorem c1_aggregation_idempotent (prior : Option String)
    (files : List (Option CostSessionFile)) (t1 t2 : String) (a1 : CostsAggregation)
    (ht1 : t1 ≠ "")
    (h1 : CostsLogger.aggregation prior files t1 = some a1) :
    ∃ a2, CostsLogger.aggregation (some a1.created_date) files t2 = some a2 ∧
      a2.created_date = a1.created_date ∧
      a2.last_update = t2 ∧
      a2.session_count = a1.session_count ∧
      a2.total_tokens = a1.total_tokens ∧
      a2.cache_usage = a1.cache_usage ∧
      a2.cost_usd = a1.cost_usd := by
  unfold CostsLogger.aggregation at h1 ⊢
  rw [aggregationBody_eq] at h1 ⊢
  cases hra : readAllFiles files with
  | error e =>
    rw [hra] at h1
    simp [Except.map] at h1
  | ok contents =>
    rw [hra] at h1
    simp only [Except.map] at h1 ⊢
    have ha1 := (Option.some.inj h1).symm
    subst ha1
    refine ⟨_, rfl, ?_, rfl, rfl, rfl, rfl, rfl⟩
    have hne := createdDateOf_ne_empty prior t1 ht1
    simp only [createdDateOf] at hne ⊢
    rw [if_neg hne]

/-- Closed witness for C1: one session file, first aggregation at `t1`,
rerun at `t2`. -/
theorem c1_aggregation_idempotent_witness :
    ∃ a1 a2,
      CostsLogger.aggregation none
        [some { session_id := some "s1", timestamp := some "2024-01-01T00:00:00+00:00" }]
        "2024-01-01T00:00:01+00:00" = some a1 ∧
      CostsLogger.aggregation (some a1.created_date)
        [some { session_id := some "s1", timestamp := some "2024-01-01T00:00:00+00:00" }]
        "2024-01-02T00:00:00+00:00" = some a2 ∧
      a2.created_date = a1.created_date ∧
      a2.last_update = "2024-01-02T00:00:00+00:00" ∧
      a2.session_count = a1.session_count ∧
      a2.total_tokens = a1.total_tokens ∧
      a2.cache_usage = a1.cache_usage ∧
      a2.cost_usd = a1.cost_usd := by
  obtain ⟨a1, h1⟩ : ∃ a1, CostsLogger.aggregation none
      [some { session_id := some "s1", timestamp := some "2024-01-01T00:00:00+00:00" }]
      "2024-01-01T00:00:01+00:00" = some a1 := ⟨_, rfl⟩
  obtain ⟨a2, h2, hcd, hlu, hsc, htt, hcu, hco⟩ :=
    c1_aggregation_idempotent none
      [some { session_id := some "s1", timestamp := some "2024-01-01T00:00:00+00:00" }]
      "2024-01-01T00:00:01+00:00" "2024-01-02T00:00:00+00:00" a1 (by decide) h1
  exact ⟨a1, a2, h1, h2, hcd, hlu, hsc, htt, hcu, hco⟩

/-- C2: evaluating `UserInputsLogger.aggregation` on the repository's own
test fixture (two session files, the later-timestamped one globbed first)
shows the written `inputs` value nests one inner list per session file in
glob order — it is not the flattened, timestamp-sorted list the claim (and
the repository's `test_aggregation`) expects. -/
theorem c2_aggregation_nests_per_session :
    UserInputsLogger.aggregationBody
        [some { timestamp := some "2024-01-01T12:00:00Z",
                user_inputs := some [⟨"Later", "free_text", none⟩] },
         some { timestamp := some "2024-01-01T08:00:00Z",
                user_inputs := some [⟨"Earlier", "slash_command", none⟩] }] =
      .ok [[⟨"Later", "free_text", none⟩], [⟨"Earlier", "slash_command", none⟩]] ∧
    [[(⟨"Later", "free_text", none⟩ : InputRecord)], [⟨"Earlier", "slash_command", none⟩]] ≠
      [[⟨"Earlier", "slash_command", none⟩, ⟨"Later", "free_text", none⟩]] := by
  exact ⟨rfl, by decide⟩

/-- C3: a malformed session file during aggregation is not skipped.  For
`UserInputsLogger` the decode error escapes `aggregation`, so
`BaseLogger.run`'s handler exits 1 (the valid file is not aggregated); for
`CostsLogger` the whole aggregation is abandoned (nothing written, the good
file not aggregated) though the hook still exits 0. -/
theorem c3_malformed_file_not_skipped :
    UserInputsLogger.aggregationExc
        [none, some { timestamp := some "2024-01-01T08:00:00Z",
                      user_inputs := some [⟨"Valid", "free_text", none⟩] }] =
      .error "JSONDecodeError while reading a session file" ∧
    BaseLogger.runAfterWrite (UserInputsLogger.aggregationExc
        [none, some { timestamp := some "2024-01-01T08:00:00Z",
                      user_inputs := some [⟨"Valid", "free_text", none⟩] }]) = .exit1 ∧
    CostsLogger.aggregation none
        [some { session_id := some "s1", timestamp := some "2024-01-01T08:00:00Z" }, none]
        "2024-01-01T09:00:00+00:00" = none ∧
    BaseLogger.runAfterWrite (CostsLogger.aggregationExc none
        [some { session_id := some "s1", timestamp := some "2024-01-01T08:00:00Z" }, none]
        "2024-01-01T09:00:00+00:00") = .exit0 := by
  exact ⟨rfl, rfl, rfl, rfl⟩

theorem modelPhase_fields (model : Option String) (cd : CostData) :
    (modelPhase model cd).total_tokens = cd.total_tokens ∧
    (modelPhase model cd).duration_seconds = cd.duration_seconds ∧
    (modelPhase model cd).duration_formatted = cd.duration_formatted := by
  unfold modelPhase
  split
  · split
    · exact ⟨rfl, rfl, rfl⟩
    · exact ⟨rfl, rfl, rfl⟩
  · exact ⟨rfl, rfl, rfl⟩

theorem durationPhase_total (cd : CostData) (od : Option ℚ) :
    (durationPhase cd od).total_tokens = cd.total_tokens := by
  cases od <;> rfl

theorem costPhase_fields (pricing : List (String × ModelPricing)) (model : Option String)
    (ti tout cr cw : ℤ) (cd : CostData) :
    (costPhase pricing model ti tout cr cw cd).total_tokens = cd.total_tokens ∧
    (costPhase pricing model ti tout cr cw cd).duration_seconds = cd.duration_seconds ∧
    (costPhase pricing model ti tout cr cw cd).duration_formatted = cd.duration_formatted := by
  unfold costPhase
  split
  · split
    · split
      · exact ⟨rfl, rfl, rfl⟩
      · exact ⟨rfl, rfl, rfl⟩
    · exact ⟨rfl, rfl, rfl⟩
  · exact ⟨rfl, rfl, rfl⟩

theorem usagePhase_total_shape (pricing : List (String × ModelPricing))
    (model : Option String) (tu : List UsageVal) (cd : CostData) :
    (usagePhase pricing model tu cd).total_tokens = cd.total_tokens ∨
    ∃ ti tout : ℤ, (usagePhase pricing model tu cd).total_tokens = some ⟨ti, tout, ti + tout⟩ := by
  unfold usagePhase
  split
  · exact Or.inl rfl
  · rcases costPhase_fields pricing model (sumUsage (·.input_tokens) tu)
      (sumUsage (·.output_tokens) tu) (sumUsage (·.cache_read_input_tokens) tu)
      (sumUsage (·.cache_creation_input_tokens) tu) _ with ⟨hct, -, -⟩
    rw [hct]
    split
    · split
      · exact Or.inr ⟨_, _, rfl⟩
      · exact Or.inl rfl
    · split
      · exact Or.inr ⟨_, _, rfl⟩
      · exact Or.inl rfl

theorem extraction_total_shape (pricing : List (String × ModelPricing))
    (lines : List TranscriptLine) :
    (CostsLogger.extraction pricing lines).total_tokens = none ∨
    ∃ ti tout : ℤ,
      (CostsLogger.extraction pricing lines).total_tokens = some ⟨ti, tout, ti + tout⟩ := by
  simp only [CostsLogger.extraction]
  split
  · exact Or.inl (modelPhase_fields _ _).1
  · split
    · exact Or.inl ((durationPhase_total _ _).trans (modelPhase_fields _ _).1)
    · rcases usagePhase_total_shape pricing
        (CostsLogger.detect_model_from_transcript (parseTranscriptLines lines)) _ _ with h | h
      · exact Or.inl (h.trans ((durationPhase_total _ _).trans (modelPhase_fields _ _).1))
      · exact Or.inr h

/-- C8: whenever `CostsLogger.extraction` emits a `total_tokens` object, its
`total` field equals `input + output`. -/
theorem c8_total_is_input_plus_output (pricing : List (String × ModelPricing))
    (lines : List TranscriptLine) (tt : TotalTokens)
    (h : (CostsLogger.extraction pricing lines).total_tokens = some tt) :
    tt.total = tt.input + tt.output := by
  rcases extraction_total_shape pricing lines with h0 | ⟨ti, tout, h0⟩
  · rw [h0] at h
    cases h
  · rw [h0] at h
    rw [← Option.some.inj h]

/-- Closed witness for C8: a transcript with two messages carrying
`input_tokens = 100` and `input_tokens = 200` yields
`total_tokens = {input: 300, output: 0, total: 300}`. -/
theorem c8_total_is_input_plus_output_witness :
    (CostsLogger.extraction []
        [.msg { usage := some (.udict { input_tokens := some 100 }) },
         .msg { usage := some (.udict { input_tokens := some 200 }) }]).total_tokens =
      some ⟨300, 0, 300⟩ ∧
    (300 : ℤ) = 300 + 0 := by
  have hv : (CostsLogger.extraction []
      [.msg { usage := some (.udict { input_tokens := some 100 }) },
       .msg { usage := some (.udict { input_tokens := some 200 }) }]).total_tokens =
      some ⟨300, 0, 300⟩ := by decide
  exact ⟨hv, c8_total_is_input_plus_output []
    [.msg { usage := some (.udict { input_tokens := some 100 }) },
     .msg { usage := some (.udict { input_tokens := some 200 }) }] ⟨300, 0, 300⟩ hv⟩

theorem usagePhase_duration (pricing : List (String × ModelPricing))
    (model : Option String) (tu : List UsageVal) (cd : CostData) :
    (usagePhase pricing model tu cd).duration_seconds = cd.duration_seconds ∧
    (usagePhase pricing model tu cd).duration_formatted = cd.duration_formatted := by
  unfold usagePhase
  split
  · exact ⟨rfl, rfl⟩
  · rcases costPhase_fields pricing model (sumUsage (·.input_tokens) tu)
      (sumUsage (·.output_tokens) tu) (sumUsage (·.cache_read_input_tokens) tu)
      (sumUsage (·.cache_creation_input_tokens) tu) _ with ⟨-, hds, hdf⟩
    constructor
    · rw [hds]
      split
      · split
        · rfl
        · rfl
      · split
        · rfl
        · rfl
    · rw [hdf]
      split
      · split
        · rfl
        · rfl
      · split
        · rfl
        · rfl

/-- C7 (amended): whenever the collected valid timestamps let the
last-minus-first subtraction succeed with value `d` seconds (at least two
valid timestamps, all naive or all aware), `extraction` sets
`duration_seconds = round(d, 2)` and `duration_formatted` from
`int(d)`; with fewer than two valid timestamps neither duration key is
produced. -/
theorem c7_duration_last_minus_first (pricing : List (String × ModelPricing))
    (lines : List TranscriptLine) :
    (∀ d : ℚ, durationStep (collectTimestamps (parseTranscriptLines lines)) = .ok (some d) →
      (CostsLogger.extraction pricing lines).duration_seconds = some (pyRound d 2) ∧
      (CostsLogger.extraction pricing lines).duration_formatted =
        some (formatDuration (pyInt d))) ∧
    ((collectTimestamps (parseTranscriptLines lines)).length < 2 →
      (CostsLogger.extraction pricing lines).duration_seconds = none ∧
      (CostsLogger.extraction pricing lines).duration_formatted = none) := by
  constructor
  · intro d hd
    simp only [CostsLogger.extraction]
    rw [hd]
    cases hu : collectUsage (parseTranscriptLines lines) with
    | error e => exact ⟨rfl, rfl⟩
    | ok tu =>
      exact ⟨(usagePhase_duration _ _ _ _).1.trans rfl,
        (usagePhase_duration _ _ _ _).2.trans rfl⟩
  · intro hlt
    have hds : durationStep (collectTimestamps (parseTranscriptLines lines)) = .ok none := by
      unfold durationStep
      cases hts : collectTimestamps (parseTranscriptLines lines) with
      | nil => rfl
      | cons a t =>
        cases t with
        | nil => rfl
        | cons b r =>
          rw [hts] at hlt
          simp at hlt
          exact absurd hlt (by omega)
    simp only [CostsLogger.extraction]
    rw [hds]
    cases hu : collectUsage (parseTranscriptLines lines) with
    | error e =>
      exact ⟨(modelPhase_fields _ _).2.1, (modelPhase_fields _ _).2.2⟩
    | ok tu =>
      exact ⟨(usagePhase_duration _ _ _ _).1.trans (modelPhase_fields _ _).2.1,
        (usagePhase_duration _ _ _ _).2.trans (modelPhase_fields _ _).2.2⟩

/-- C7 counterexample: a transcript with two parseable timestamps, one naive
(`...Z`, parsed by the second strptime format) and one aware
(`...+05:00`, parsed by the `%z` format), yields no `duration_seconds` at
all — the subtraction raises `TypeError` and `extraction` records
`transcript_parse_error` instead. -/
theorem c7_counterexample :
    (collectTimestamps (parseTranscriptLines
        [.msg { timestamp := some "2024-01-15T10:00:00Z" },
         .msg { timestamp := some "2024-01-15T10:05:30.000000+05:00" }])).length = 2 ∧
    (CostsLogger.extraction []
        [.msg { timestamp := some "2024-01-15T10:00:00Z" },
         .msg { timestamp := some "2024-01-15T10:05:30.000000+05:00" }]).duration_seconds =
      none ∧
    (CostsLogger.extraction []
        [.msg { timestamp := some "2024-01-15T10:00:00Z" },
         .msg { timestamp := some "2024-01-15T10:05:30.000000+05:00" }]).transcript_parse_error =
      some "TypeError: cannot subtract offset-naive and offset-aware datetimes" := by
  refine ⟨by decide, by decide, by decide⟩

/-- Closed witness for C7 (amended): the spec's scenario — timestamps
`10:00:00` to `10:05:30` give `duration_seconds = 330` and
`duration_formatted = "5m 30s"`; the empty transcript gets no duration
keys. -/
theorem c7_duration_last_minus_first_witness :
    (CostsLogger.extraction []
        [.msg { timestamp := some "2024-01-15T10:00:00Z" },
         .msg { timestamp := some "2024-01-15T10:05:30Z" }]).duration_seconds =
      some 330 ∧
    (CostsLogger.extraction []
        [.msg { timestamp := some "2024-01-15T10:00:00Z" },
         .msg { timestamp := some "2024-01-15T10:05:30Z" }]).duration_formatted =
      some "5m 30s" ∧
    (CostsLogger.extraction [] []).duration_seconds = none ∧
    (CostsLogger.extraction [] []).duration_formatted = none := by
  have h := (c7_duration_last_minus_first []
    [.msg { timestamp := some "2024-01-15T10:00:00Z" },
     .msg { timestamp := some "2024-01-15T10:05:30Z" }]).1 330 (by rfl)
  have h2 := (c7_duration_last_minus_first [] []).2 (by decide)
  refine ⟨h.1.trans ?_, h.2.trans ?_, h2.1, h2.2⟩
  · norm_num [pyRound, pyRoundHalfEven]
  · have hi : pyInt (330 : ℚ) = 330 := by norm_num [pyInt]
    rw [hi]
    decide
